import Mathlib

/-!
Verification development for the rinex-utils repository (Python).

This file shallowly embeds the record-decoding and series-assembly code of
the repository into Lean:

* src/python/rinex_utils/rinex2.py  (RINEX 2 observation dialect)
* src/python/rinex_utils/rinex3.py  (RINEX 3 observation dialect)
* src/python/rinex_utils/sp3/sp3.py (precise-orbit records and multi-file merge)
* src/python/rinex_utils/clk.py     (clock-file module, import structure)
* src/python/rinexutils/parse_rinex_nav.py (two-digit-year resolution)

Python floats are modelled as exact rationals; the float value NaN (used by
the code as the "missing" marker) is modelled as the value `none` of
`Option Rat`.  Rational arithmetic is performed through `mkRat`-based
helpers (`qAdd`, `qSub`, `qMul`, ...) which are definitionally computable,
and which are proven equal to the standard field operations below.
Python exceptions are modelled with `Except PyErr`; a caught
`StopIteration` (exhausted line iterator) is modelled by the parser
returning its accumulated data, exactly as the source's
`except StopIteration: pass` does.
-/

/-- Errors raised by the modelled Python code.  `valueError` covers
`int()` / `float()` conversion failures and invalid `datetime` components,
`assertionError` failed `assert` statements, `keyError` missing
dictionary keys, `indexError` out-of-range subscripts, and `importError`
a failed module import. -/
inductive PyErr where
  | valueError
  | assertionError
  | keyError
  | indexError
  | importError
  deriving DecidableEq, Repr

/-- Computable rational from an integer. -/
def qOfInt (i : Int) : ℚ := mkRat i 1

/-- Computable rational addition (agrees with `+`, see `qAdd_eq`). -/
def qAdd (a b : ℚ) : ℚ := mkRat (a.num * b.den + b.num * a.den) (a.den * b.den)

/-- Computable rational subtraction (agrees with `-`, see `qSub_eq`). -/
def qSub (a b : ℚ) : ℚ := mkRat (a.num * b.den - b.num * a.den) (a.den * b.den)

/-- Computable rational multiplication (agrees with `*`, see `qMul_eq`). -/
def qMul (a b : ℚ) : ℚ := mkRat (a.num * b.num) (a.den * b.den)

/-- Python `abs` on a float. -/
def pyAbs (q : ℚ) : ℚ := if q < 0 then -q else q

/-- Python `int()` applied to a float: truncation toward zero. -/
def pyTruncInt (q : ℚ) : Int := q.num.tdiv q.den

/-- Floor of a rational, computably. -/
def pyFloorInt (q : ℚ) : Int := q.num.fdiv q.den

/-- Python `q % 1` for a float `q`: the fractional part `q - floor q`
(always in `[0, 1)`). -/
def pyMod1 (q : ℚ) : ℚ := qSub q (qOfInt (pyFloorInt q))

/-- Whitespace test matching Python `str.strip` / `str.split` defaults on
the characters occurring in RINEX files. -/
def pySpace (c : Char) : Bool :=
  c = ' ' || c = '\t' || c = '\n' || c = '\r'

/-- Python `str.strip()`. -/
def pyStrip (s : String) : String :=
  String.mk (((s.toList.dropWhile pySpace).reverse.dropWhile pySpace).reverse)

/-- Python slicing `s[a:b]` (indices clamp; never raises). -/
def pySlice (s : String) (a b : Nat) : String :=
  String.mk ((s.toList.drop a).take (b - a))

/-- Python slicing `s[a:]`. -/
def pySliceFrom (s : String) (a : Nat) : String :=
  String.mk (s.toList.drop a)

/-- Python subscript `s[i]`; raises `IndexError` when out of range. -/
def pyCharAt (s : String) (i : Nat) : Except PyErr Char :=
  match s.toList.drop i with
  | [] => .error .indexError
  | c :: _ => .ok c

/-- Python `str.split()` with no separator: split on whitespace runs,
producing no empty words. -/
def pySplit (s : String) : List String :=
  ((s.toList.splitOnP pySpace).filter (fun w => ¬ w.isEmpty)).map String.mk

/-- Python `str.ljust(n)` (pad on the right with blanks). -/
def pyLjust (s : String) (n : Nat) : String :=
  String.mk (s.toList ++ List.replicate (n - s.toList.length) ' ')

/-- Python `str.rjust(n)` (pad on the left with blanks). -/
def pyRjust (s : String) (n : Nat) : String :=
  String.mk (List.replicate (n - s.toList.length) ' ' ++ s.toList)

/-- Python `line.replace('\n', '')`. -/
def pyDropNewlines (s : String) : String :=
  String.mk (s.toList.filter (fun c => c ≠ '\n'))

/-- Python `s.replace(' ', '0')`, as used for RINEX 2 satellite-id
normalization. -/
def pyBlankToZero (s : String) : String :=
  String.mk (s.toList.map (fun c => if c = ' ' then '0' else c))

/-- Decimal digits of a character list, `none` when a non-digit occurs or
the list is empty. -/
def digitsToNatGo : List Char → Nat → Option Nat
  | [], acc => some acc
  | c :: rest, acc =>
    if c.isDigit then digitsToNatGo rest (acc * 10 + (c.toNat - '0'.toNat)) else none

/-- Decimal digits of a non-empty character list, with accumulator. -/
def digitsToNat : List Char → Option Nat
  | [] => none
  | cs => digitsToNatGo cs 0

/-- Python `int(s)` on a string: strips whitespace, allows one sign,
requires at least one digit, rejects anything else (`ValueError`,
modelled as `none`). -/
def pyInt (s : String) : Option Int :=
  match (pyStrip s).toList with
  | '-' :: rest => (digitsToNat rest).map (fun n => -(n : Int))
  | '+' :: rest => (digitsToNat rest).map (fun n => (n : Int))
  | rest => (digitsToNat rest).map (fun n => (n : Int))

/-- Split a character list at the first `'.'`. -/
def splitAtDot (cs : List Char) : List Char × Option (List Char) :=
  match cs.splitOnP (fun c => c = '.') with
  | [w] => (w, none)
  | [w, f] => (w, some f)
  | _ => ([], some ['x'])  -- more than one dot: forces a parse failure

/-- Parse the digits-and-dot part of a float literal into
numerator and power-of-ten denominator exponent. -/
def parseMantissa (cs : List Char) : Option (Nat × Nat) :=
  match splitAtDot cs with
  | (w, none) => (digitsToNat w).map (fun n => (n, 0))
  | (w, some f) =>
    if w.isEmpty ∧ f.isEmpty then none
    else if w.isEmpty then (digitsToNat f).map (fun n => (n, f.length))
    else if f.isEmpty then (digitsToNat w).map (fun n => (n, 0))
    else
      match digitsToNat w, digitsToNat f with
      | some a, some b => some (a * 10 ^ f.length + b, f.length)
      | _, _ => none

/-- Parse an optional float exponent (after `e`/`E`). -/
def parseExp (cs : List Char) : Option Int :=
  match cs with
  | '-' :: rest => (digitsToNat rest).map (fun n => -(n : Int))
  | '+' :: rest => (digitsToNat rest).map (fun n => (n : Int))
  | rest => (digitsToNat rest).map (fun n => (n : Int))

/-- Build the rational `sign * (m / 10^k) * 10^e` computably. -/
def decToRat (sign : Bool) (m k : Nat) (e : Int) : ℚ :=
  let n : Int := if sign then -(m : Int) else (m : Int)
  match e with
  | .ofNat e' => mkRat (n * (10 : Int) ^ e') ((10 : Nat) ^ k)
  | .negSucc e' => mkRat n ((10 : Nat) ^ (k + (e' + 1)))

/-- Python `float(s)` on a string: strips whitespace, then accepts
`[+-] digits [. digits] [eE [+-] digits]`; anything else is a
`ValueError`, modelled as `none`.  (The special literals `inf` and `nan`
never occur in the fixed-width numeric fields handled here.) -/
def pyFloat (s : String) : Option ℚ :=
  let cs := (pyStrip s).toList
  let (sign, cs) := match cs with
    | '-' :: rest => (true, rest)
    | '+' :: rest => (false, rest)
    | rest => (false, rest)
  match cs.splitOnP (fun c => c = 'e' || c = 'E') with
  | [m] => (parseMantissa m).map (fun p => decToRat sign p.1 p.2 0)
  | [m, ex] =>
    match parseMantissa m, parseExp ex with
    | some p, some e => some (decToRat sign p.1 p.2 e)
    | _, _ => none
  | _ => none

/-- Calendar timestamp as stored by the parsers (the components handed to
Python's `datetime` constructor). -/
structure PyDatetime where
  year : Int
  month : Int
  day : Int
  hour : Int
  minute : Int
  second : Int
  microsecond : Int
  deriving DecidableEq, Repr

/-- Day count of a month, with the Gregorian leap rule (as Python's
`datetime` validates). -/
def daysInMonth (year month : Int) : Int :=
  if month = 2 then
    if year % 4 = 0 ∧ (year % 100 ≠ 0 ∨ year % 400 = 0) then 29 else 28
  else if month = 4 ∨ month = 6 ∨ month = 9 ∨ month = 11 then 30
  else 31

/-- Python `datetime(year, month, day, hour, minute, second, microsecond)`:
raises `ValueError` on out-of-range components. -/
def mkDatetime (year month day hour minute second microsecond : Int) :
    Except PyErr PyDatetime :=
  if 1 ≤ year ∧ year ≤ 9999 ∧ 1 ≤ month ∧ month ≤ 12 ∧
      1 ≤ day ∧ day ≤ daysInMonth year month ∧
      0 ≤ hour ∧ hour < 24 ∧ 0 ≤ minute ∧ minute < 60 ∧
      0 ≤ second ∧ second < 60 ∧ 0 ≤ microsecond ∧ microsecond < 1000000 then
    .ok ⟨year, month, day, hour, minute, second, microsecond⟩
  else .error .valueError

/-- First-match association lookup (Python dictionary read `d[k]`,
yielding `none` where Python raises `KeyError`). -/
def alookup {β : Type} (k : String) : List (String × β) → Option β
  | [] => none
  | (k', v) :: rest => if k' = k then some v else alookup k rest

/-- Python dictionary write `d[k] = v`: replaces the first binding of `k`,
or appends a new binding at the end (insertion order preserved). -/
def aset {β : Type} (k : String) (v : β) : List (String × β) → List (String × β)
  | [] => [(k, v)]
  | (k', v') :: rest => if k' = k then (k, v) :: rest else (k', v') :: aset k v rest

/-- Python `d[k].append(x)` on a dictionary of lists: `none` when the key
is absent (Python raises `KeyError`). -/
def aappend {β : Type} (k : String) (x : β) :
    List (String × List β) → Option (List (String × List β))
  | [] => none
  | (k', v) :: rest =>
    if k' = k then some ((k', v ++ [x]) :: rest)
    else (aappend k x rest).map (fun r => (k', v) :: r)


/-!
## RINEX 3 observation data parser

Embedding of `parse_RINEX3_obs_data` (src/python/rinex_utils/rinex3.py,
lines 168-237).  A satellite record entry is modelled as a structure with
the epoch-index list and an insertion-ordered association list of
observation values; this mirrors the Python per-satellite dictionary
`{'index': [...], <obs_id>: [...]}` under the format-validity assumption
that no declared observation code is literally the string "index"
(a real RINEX 3 observation code is three characters such as "C1C").
-/

/-- Per-field numeric decode of the RINEX 3 observation dialect
(rinex3.py lines 227-232): a blank field yields NaN (`none`); a non-blank
field is passed to `float`, whose failure propagates as a `ValueError`
(there is no try/except around it in the source). -/
def rinex3_parse_obs_field (s : String) : Except PyErr (Option ℚ) :=
  let obs_str := pyStrip s
  if obs_str = "" then .ok none
  else
    match pyFloat obs_str with
    | some v => .ok (some v)
    | none => .error .valueError

/-- Per-field numeric decode of the RINEX 2 observation dialect
(rinex2.py lines 213-226).  Result `none`: blank field, nothing appended
(the source does `continue`).  Result `some v`: the value `v` is appended,
where `v = none` models NaN (the `except` branch of the `float` call).
Three or more blank-separated tokens inside one 16-column field hit the
source's `assert(False)`. -/
def rinex2_parse_obs_field (s : String) : Except PyErr (Option (Option ℚ)) :=
  let val_str := pyStrip s
  if val_str = "" then .ok none
  else
    match pySplit val_str with
    | [tok] => .ok (some (pyFloat tok))
    | [tok, _] => .ok (some (pyFloat tok))
    | _ => .error .assertionError

/-- One satellite's assembled series in the RINEX 3 parser: the Python
dictionary `{'index': [...], <obs_id>: [...]}`. -/
structure R3Entry where
  index : List Nat
  obs : List (String × List (Option ℚ))
  deriving DecidableEq, Repr

/-- The RINEX 3 parser's `data` dictionary: satellite id to entry, in
insertion order. -/
abbrev R3Data := List (String × R3Entry)

/-- The inner loop `for j, obs_type in enumerate(obs_types)` of
`parse_RINEX3_obs_data`: slices column span `[16 j, 16 (j+1))` out of the
padded record text, decodes it, and appends it to the satellite's list
for that observation type. -/
def r3ApplyObs (padded : String) : Nat → List String →
    List (String × List (Option ℚ)) → Except PyErr (List (String × List (Option ℚ)))
  | _, [], m => .ok m
  | j, t :: ts, m =>
    match rinex3_parse_obs_field (pySlice padded (j * 16) ((j + 1) * 16)) with
    | .error e => .error e
    | .ok v =>
      match aappend t v m with
      | some m' => r3ApplyObs padded (j + 1) ts m'
      | none => .error .keyError

/-- Processing of one satellite record line (rinex3.py lines 213-233). -/
def r3ProcessSatLine (line : String) (system_obs_types : List (String × List String))
    (epoch_index : Nat) (data : R3Data) : Except PyErr R3Data :=
  let sat_id := pySlice line 0 3
  if sat_id = "" then .error .indexError  -- sat_id[0] on an empty line
  else
    let system_letter := pySlice sat_id 0 1
    match alookup system_letter system_obs_types with
    | none => .error .keyError
    | some obs_types =>
      let entry := match alookup sat_id data with
        | some e => e
        | none => { index := [], obs := obs_types.map (fun t => (t, [])) }
      let num_chars := obs_types.length * 16
      let rem := pySliceFrom line 3
      let padded := String.mk (rem.toList ++ List.replicate (num_chars - rem.toList.length) ' ')
      match r3ApplyObs padded 0 obs_types entry.obs with
      | .error e => .error e
      | .ok obs' =>
        .ok (aset sat_id { index := entry.index ++ [epoch_index], obs := obs' } data)

/-- The `for i in range(num_sats)` loop: reads one line per satellite.
Second component `none` signals that the line iterator was exhausted
mid-epoch (Python's `StopIteration`, caught by the caller which then
returns the data accumulated so far). -/
def r3ProcessSats (system_obs_types : List (String × List String)) (epoch_index : Nat) :
    Nat → List String → R3Data → Except PyErr (R3Data × Option (List String))
  | 0, lines, data => .ok (data, some lines)
  | _ + 1, [], data => .ok (data, none)
  | n + 1, line :: rest, data =>
    match r3ProcessSatLine line system_obs_types epoch_index data with
    | .error e => .error e
    | .ok data' => r3ProcessSats system_obs_types epoch_index n rest data'

/-- Epoch-header-line parsing of `parse_RINEX3_obs_data` (lines 198-211):
leading `>` marker, split calendar fields, flag and satellite count. -/
def r3EpochHeader (line : String) : Except PyErr (PyDatetime × Int) :=
  match pyCharAt line 0 with
  | .error e => .error e
  | .ok c =>
    if c ≠ '>' then .error .assertionError
    else
      match pyInt (pySlice line 2 6), pyInt (pySlice line 7 9),
          pyInt (pySlice line 10 12), pyInt (pySlice line 13 15),
          pyInt (pySlice line 16 18), pyFloat (pySlice line 19 29) with
      | some year, some month, some day, some hour, some minute, some seconds =>
        let microseconds := pyTruncInt (qMul (qOfInt 1000000) (pyMod1 seconds))
        let secondsInt := pyTruncInt seconds
        match mkDatetime year month day hour minute secondsInt microseconds with
        | .error e => .error e
        | .ok dt =>
          match pyInt (pySlice line 30 32), pyInt (pySlice line 32 35) with
          | some _flag, some num_sats => .ok (dt, num_sats)
          | _, _ => .error .valueError
      | _, _, _, _, _, _ => .error .valueError

/-- The epoch-by-epoch loop of `parse_RINEX3_obs_data` (lines 193-236),
with fuel: the whole body runs under `try ... except StopIteration: pass`,
so an exhausted iterator at any `next(lines)` returns the data accumulated
so far.  Every iteration consumes at least one line, so with fuel above
the line count the fuel-exhaustion branch is unreachable. -/
def r3Loop (sys : List (String × List String)) :
    Nat → List String → R3Data → Nat → List PyDatetime →
    Except PyErr (R3Data × List PyDatetime)
  | _, [], data, _, time => .ok (data, time.reverse)
  | 0, _ :: _, _, _, _ => .error .valueError
  | fuel + 1, line :: rest, data, epoch_index, time =>
    match r3EpochHeader line with
    | .error e => .error e
    | .ok (dt, num_sats) =>
      match r3ProcessSats sys epoch_index num_sats.toNat rest data with
      | .error e => .error e
      | .ok (data', some rest') => r3Loop sys fuel rest' data' (epoch_index + 1) (dt :: time)
      | .ok (data', none) => .ok (data', (dt :: time).reverse)

/-- Embedding of `parse_RINEX3_obs_data(lines, system_obs_types)`
(rinex3.py lines 168-237). -/
def parse_RINEX3_obs_data (lines : List String)
    (system_obs_types : List (String × List String)) :
    Except PyErr (R3Data × List PyDatetime) :=
  r3Loop system_obs_types (lines.length + 1) lines [] 0 []

/-!
## RINEX 2 observation data parser

Embedding of `parse_RINEX2_obs_data` (src/python/rinex_utils/rinex2.py,
lines 144-235).  The top-level `while True` loop is driven by a fuel
argument set to `lines.length + 1`; every loop iteration consumes at least
one input line, so the fuel never runs out (the fuel-exhaustion branch is
unreachable for the wrapper below).
-/

/-- One satellite's assembled series in the RINEX 2 parser: the Python
dictionary `{'time': [...], 'index': [...], <obs_id>: [...]}`; observation
lists are created lazily, when a code is first seen non-blank for the
satellite (rinex2.py lines 227-229).  Modelled structurally under the
format-validity assumption that no observation code is literally "time" or
"index". -/
structure R2Entry where
  time : List PyDatetime
  index : List Nat
  obs : List (String × List (Option ℚ))
  deriving DecidableEq, Repr

/-- The RINEX 2 parser's `data` dictionary. -/
abbrev R2Data := List (String × R2Entry)

/-- Either a value, or the marker that the line iterator was exhausted
(`StopIteration` propagating to the parser's top-level `try`). -/
inductive StopOr (α : Type) where
  | stopped
  | val (a : α)
  deriving DecidableEq, Repr

/-- The count `num_lines_per_sat = 1 + len(observations) // 5` (rinex2.py line 208):
the number of physical lines read for one satellite's logical record. -/
def num_lines_per_sat (observations : List String) : Nat :=
  1 + observations.length / 5

/-- The satellite-id collection loop (rinex2.py lines 187-196): consumes
3-character id slots from the epoch line's tail, following onto
continuation lines; ids have blanks zero-filled.  The argument is the
number of ids still to collect. -/
def r2CollectSatIds : Nat → String → List String →
    Except PyErr (StopOr (List String × List String))
  | 0, _, lines => .ok (.val ([], lines))
  | n + 1, cur, lines =>
    let sid := pyBlankToZero (pySlice cur 0 3)
    let cur' := pySliceFrom cur 3
    if cur' = "" ∧ n ≠ 0 then
      match lines with
      | [] => .ok .stopped
      | l :: rest =>
        if pyStrip (pySlice l 0 32) ≠ "" then .error .assertionError
        else
          let l' := pyStrip l
          if l'.toList.length % 3 ≠ 0 then .error .assertionError
          else
            match r2CollectSatIds n l' rest with
            | .error e => .error e
            | .ok .stopped => .ok .stopped
            | .ok (.val (ids, rem)) => .ok (.val (sid :: ids, rem))
    else
      match r2CollectSatIds n cur' lines with
      | .error e => .error e
      | .ok .stopped => .ok .stopped
      | .ok (.val (ids, rem)) => .ok (.val (sid :: ids, rem))

/-- Reading of the physical observation lines of one logical record
(rinex2.py lines 209-211): each line has newlines removed and is padded to
80 columns, and the texts are concatenated. -/
def r2ReadObsLines : Nat → List String → StopOr (String × List String)
  | 0, lines => .val ("", lines)
  | _ + 1, [] => .stopped
  | n + 1, l :: rest =>
    match r2ReadObsLines n rest with
    | .stopped => .stopped
    | .val (acc, rem) => .val (pyLjust (pyDropNewlines l) 80 ++ acc, rem)

/-- The value loop `for i, obs_id in enumerate(observations)` (rinex2.py
lines 212-229): a blank 16-column field is skipped outright (`continue`);
otherwise the decoded value (NaN on float-conversion failure) is appended
to the satellite's list for that code, creating the list if the code was
never seen for this satellite. -/
def r2ApplyObs (padded : String) : Nat → List String →
    List (String × List (Option ℚ)) → Except PyErr (List (String × List (Option ℚ)))
  | _, [], m => .ok m
  | i, obs_id :: rest, m =>
    match rinex2_parse_obs_field (pySlice padded (16 * i) (16 * (i + 1))) with
    | .error e => .error e
    | .ok none => r2ApplyObs padded (i + 1) rest m
    | .ok (some v) =>
      let m₁ := match alookup obs_id m with
        | some _ => m
        | none => m ++ [(obs_id, [])]
      match aappend obs_id v m₁ with
      | some m₂ => r2ApplyObs padded (i + 1) rest m₂
      | none => .error .keyError

/-- Processing of one satellite of one epoch (rinex2.py lines 197-229):
time and epoch index are appended first, then the observation lines are
read (a `StopIteration` here leaves the already-appended time/index in
place and ends the parse), then the values are appended. -/
def r2ProcessSat (observations : List String) (dt : PyDatetime) (epoch_index : Nat)
    (sat_id : String) (data : R2Data) (lines : List String) :
    Except PyErr (R2Data × Option (List String)) :=
  let entry := match alookup sat_id data with
    | some e => e
    | none => { index := [], time := [], obs := [] }
  let entry := { entry with time := entry.time ++ [dt], index := entry.index ++ [epoch_index] }
  let data₁ := aset sat_id entry data
  match r2ReadObsLines (num_lines_per_sat observations) lines with
  | .stopped => .ok (data₁, none)
  | .val (padded, rem) =>
    match r2ApplyObs padded 0 observations entry.obs with
    | .error e => .error e
    | .ok obs' => .ok (aset sat_id { entry with obs := obs' } data₁, some rem)

/-- The `for sat_id in sat_ids` loop. -/
def r2ProcessSatList (observations : List String) (dt : PyDatetime) (epoch_index : Nat) :
    List String → R2Data → List String → Except PyErr (R2Data × Option (List String))
  | [], data, lines => .ok (data, some lines)
  | sid :: rest, data, lines =>
    match r2ProcessSat observations dt epoch_index sid data lines with
    | .error e => .error e
    | .ok (data', none) => .ok (data', none)
    | .ok (data', some rem) => r2ProcessSatList observations dt epoch_index rest data' rem

/-- Epoch-line parsing of `parse_RINEX2_obs_data` (rinex2.py lines
170-183): two-digit year plus century, split calendar fields, flag and
satellite count.  The resolved year is `century + yy`. -/
def r2EpochHeader (line : String) (century : Int) : Except PyErr (PyDatetime × Int) :=
  match pyInt (pySlice line 0 4), pyInt (pySlice line 4 7), pyInt (pySlice line 7 10),
      pyInt (pySlice line 10 13), pyInt (pySlice line 13 16), pyFloat (pySlice line 16 25) with
  | some yy, some month, some day, some hour, some minute, some seconds =>
    let year := century + yy
    let microseconds := pyTruncInt (qMul (qOfInt 1000000) (pyMod1 seconds))
    let secondsInt := pyTruncInt seconds
    match mkDatetime year month day hour minute secondsInt microseconds with
    | .error e => .error e
    | .ok dt =>
      match pyInt (pySlice line 25 28), pyInt (pySlice line 29 32) with
      | some _flag, some num_sats => .ok (dt, num_sats)
      | _, _ => .error .valueError
  | _, _, _, _, _, _ => .error .valueError

/-- The epoch-by-epoch loop of `parse_RINEX2_obs_data`, with fuel.  Any
`StopIteration` returns the data accumulated so far (the body runs inside
`try ... except StopIteration: pass`).  The fuel-exhaustion branch is
unreachable when the fuel exceeds the line count, since every iteration
consumes at least one line. -/
def r2Loop (observations : List String) (century : Int) :
    Nat → List String → R2Data → Nat → List PyDatetime →
    Except PyErr (R2Data × List PyDatetime)
  | _, [], data, _, time => .ok (data, time.reverse)
  | 0, _ :: _, _, _, _ => .error .valueError
  | fuel + 1, line :: rest, data, epoch_index, time =>
    match r2EpochHeader line century with
    | .error e => .error e
    | .ok (dt, num_sats) =>
      let time' := dt :: time
      let cur := pyStrip (pySliceFrom line 32)
      match r2CollectSatIds num_sats.toNat cur rest with
      | .error e => .error e
      | .ok .stopped => .ok (data, time'.reverse)
      | .ok (.val (sat_ids, rem)) =>
        match r2ProcessSatList observations dt epoch_index sat_ids data rem with
        | .error e => .error e
        | .ok (data', none) => .ok (data', time'.reverse)
        | .ok (data', some rem') =>
          r2Loop observations century fuel rem' data' (epoch_index + 1) time'

/-- Embedding of `parse_RINEX2_obs_data(lines, observations, century)`
(rinex2.py lines 144-235), returning the per-satellite data dictionary and
the epoch time list. -/
def parse_RINEX2_obs_data (lines : List String) (observations : List String)
    (century : Int := 2000) : Except PyErr (R2Data × List PyDatetime) :=
  r2Loop observations century (lines.length + 1) lines [] 0 []

instance {ε α : Type} [DecidableEq ε] [DecidableEq α] : DecidableEq (Except ε α)
  | .ok a, .ok b =>
    match decEq a b with
    | isTrue h => isTrue (by rw [h])
    | isFalse h => isFalse (by intro hh; cases hh; exact h rfl)
  | .ok _, .error _ => isFalse (by intro h; cases h)
  | .error _, .ok _ => isFalse (by intro h; cases h)
  | .error a, .error b =>
    match decEq a b with
    | isTrue h => isTrue (by rw [h])
    | isFalse h => isFalse (by intro hh; cases hh; exact h rfl)

/-!
## SP3 precise-orbit records (src/python/rinex_utils/sp3/sp3.py)

The sentinel decoder `_sp3_test_nan`, the position/clock record-line
decoder, and the multi-file merge step of `parse_sp3_data` (lines
127-147).  File reading and `_sp3_strptime` (a collaborator converting the
epoch date string to GPS seconds through `datetime`) are out of scope; the
merge is modelled on the per-file parsed content: the list of
(epoch, record) pairs that `parse_sp3_records` produces (it appends to
`epochs` and `records` in lock-step, one entry per `*` line).
-/

/-- The value `999999.999999`, the SP3 not-a-number sentinel magnitude
(default of `nan_value` in `_sp3_test_nan`). -/
def sp3_nan_value : ℚ := mkRat 999999999999 1000000

/-- The value `1e-3`, the default sentinel tolerance `eps` of `_sp3_test_nan`. -/
def sp3_eps : ℚ := mkRat 1 1000

/-- Embedding of `_sp3_test_nan(x, nan_value, eps)` (sp3.py lines 30-32):
`abs(x - nan_value) < eps`, a strict comparison. -/
def _sp3_test_nan (x : ℚ) (nan_value : ℚ := sp3_nan_value) (eps : ℚ := sp3_eps) : Bool :=
  pyAbs (qSub x nan_value) < eps

/-- Embedding of `_sp3_parse_position_and_clock(line)` (sp3.py lines
49-59): fixed column spans, sentinel test on each field, km-to-m scaling
of the coordinates.  Missing (NaN) results are `none`. -/
def _sp3_parse_position_and_clock (line : String) :
    Except PyErr (String × Option ℚ × Option ℚ × Option ℚ × Option ℚ) :=
  match pyFloat (pySlice line 4 18), pyFloat (pySlice line 18 32),
      pyFloat (pySlice line 32 46), pyFloat (pySlice line 46 60) with
  | some x, some y, some z, some c =>
    let veh_id := pySlice line 1 4
    let x' := if _sp3_test_nan x then none else some (qMul x (qOfInt 1000))
    let y' := if _sp3_test_nan y then none else some (qMul y (qOfInt 1000))
    let z' := if _sp3_test_nan z then none else some (qMul z (qOfInt 1000))
    let clock := if _sp3_test_nan c then none else some c
    .ok (veh_id, x', y', z', clock)
  | _, _, _, _ => .error .valueError

/-- One SP3 epoch record: vehicle id to (x, y, z, clock), as built by
`parse_sp3_records` for one `*` epoch line. -/
abbrev Sp3Record := List (String × (Option ℚ × Option ℚ × Option ℚ × Option ℚ))

/-- The all-NaN row used to initialise `data = {veh: nan * zeros((N, 4))}`
for vehicles absent at an epoch. -/
def sp3RowNan : Option ℚ × Option ℚ × Option ℚ × Option ℚ := (none, none, none, none)

/-- Ordering of (epoch, record) pairs by epoch value, as `argsort` over
the concatenated epoch array.  `numpy.argsort` leaves the relative order
of equal epochs unspecified; the model fixes a stable insertion sort. -/
def sp3KeyLe {α : Type} (a b : ℚ × α) : Prop := a.1 ≤ b.1

instance {α : Type} : DecidableRel (@sp3KeyLe α) :=
  fun a b => inferInstanceAs (Decidable (a.1 ≤ b.1))

instance {α : Type} : IsTotal (ℚ × α) sp3KeyLe := ⟨fun a b => le_total a.1 b.1⟩

instance {α : Type} : IsTrans (ℚ × α) sp3KeyLe := ⟨fun _ _ _ => le_trans⟩

/-- Sorting of the concatenated (epoch, record) pairs: the model of
applying the `argsort(all_epochs)` permutation to the epoch array and
every per-vehicle row array simultaneously. -/
def sp3Sort {α : Type} (l : List (ℚ × α)) : List (ℚ × α) :=
  List.insertionSort sp3KeyLe l

/-- Walk of `diff(all_epochs[indices]) > 0` (sp3.py line 143), after the
head: an element is kept exactly when its epoch is strictly greater than
the epoch of its immediate predecessor in sorted order. -/
def sp3DedupGo {α : Type} : ℚ × α → List (ℚ × α) → List (ℚ × α)
  | _, [] => []
  | p, b :: l => if p.1 < b.1 then b :: sp3DedupGo b l else sp3DedupGo b l

/-- Duplicate-epoch removal of `parse_sp3_data` (sp3.py line 143): the
first sorted element is kept (`concatenate(([1], ...))`), every other
element is kept iff strictly greater than its predecessor. -/
def sp3DedupSorted {α : Type} : List (ℚ × α) → List (ℚ × α)
  | [] => []
  | a :: l => a :: sp3DedupGo a l

/-- Sort plus duplicate-epoch removal over concatenated per-file
(epoch, record) pairs. -/
def sp3MergedPairs {α : Type} (l : List (ℚ × α)) : List (ℚ × α) :=
  sp3DedupSorted (sp3Sort l)

/-- The `vehicles` list: the sorted union of vehicle ids over all files
(sp3.py lines 119-126, with `sat_ids='all'`). -/
def sp3Vehicles (files : List (List (ℚ × Sp3Record))) : List String :=
  List.insertionSort (fun a b => a ≤ b)
    ((files.flatMap (fun f => f.flatMap (fun p => p.2.map Prod.fst))).dedup)

/-- Embedding of the multi-file merge of `parse_sp3_data(filepaths)`
(sp3.py lines 112-147), taking each file's parsed (epoch, record) pairs:
concatenates the files, builds each vehicle's row array (NaN rows where
the vehicle is absent), sorts everything by the epoch value and removes an
epoch iff it equals its immediate predecessor in sorted order.  Returns
the merged epoch array and each vehicle's aligned row array. -/
def parse_sp3_data (files : List (List (ℚ × Sp3Record))) :
    List ℚ × List (String × List (Option ℚ × Option ℚ × Option ℚ × Option ℚ)) :=
  let merged := sp3MergedPairs files.flatten
  (merged.map Prod.fst,
   (sp3Vehicles files).map (fun veh =>
     (veh, merged.map (fun p => (alookup veh p.2).getD sp3RowNan))))

/-!
## RINEX 2 observation-datatype table and transform

Embedding of `OBSERVATION_DATATYPES` (rinex2.py lines 16-78) — the outer
keys are constellation names, the inner keys observation codes mapping to
a signal id and a measurement name — and of
`transform_values_from_RINEX2_obs` (lines 237-269).
-/

/-- The `OBSERVATION_DATATYPES` table of rinex2.py: constellation name to
(observation code, (signal, measurement name)) table. -/
def OBSERVATION_DATATYPES : List (String × List (String × String × String)) :=
  [("GPS",
    [("C1", "L1", "pseudorange"), ("P1", "L1", "pseudorange"), ("L1", "L1", "carrier"),
     ("D1", "L1", "doppler"), ("S1", "L1", "snr"),
     ("C2", "L2", "pseudorange"), ("P2", "L2", "pseudorange"), ("L2", "L2", "carrier"),
     ("D2", "L2", "doppler"), ("S2", "L2", "snr"),
     ("C5", "L5", "pseudorange"), ("P5", "L5", "pseudorange"), ("L5", "L5", "carrier"),
     ("D5", "L5", "doppler"), ("S5", "L5", "snr")]),
   ("GLONASS",
    [("C1", "L1", "pseudorange"), ("P1", "L1", "pseudorange"), ("L1", "L1", "carrier"),
     ("D1", "L1", "doppler"), ("S1", "L1", "snr"),
     ("C2", "L2", "pseudorange"), ("P2", "L2", "pseudorange"), ("L2", "L2", "carrier"),
     ("D2", "L2", "doppler"), ("S2", "L2", "snr")]),
   ("Galileo",
    [("C1", "E1", "pseudorange"), ("L1", "E1", "carrier"),
     ("D1", "E1", "doppler"), ("S1", "E1", "snr"),
     ("C5", "E5a", "pseudorange"), ("L5", "E5a", "carrier"),
     ("D5", "E5a", "doppler"), ("S5", "E5a", "snr"),
     ("C7", "E5b", "pseudorange"), ("L7", "E5b", "carrier"),
     ("D7", "E5b", "doppler"), ("S7", "E5b", "snr"),
     ("C8", "E5ab", "pseudorange"), ("L8", "E5ab", "carrier"),
     ("D8", "E5ab", "doppler"), ("S8", "E5ab", "snr"),
     ("C6", "E6", "pseudorange"), ("L6", "E6", "carrier"),
     ("D6", "E6", "doppler"), ("S6", "E6", "snr")]),
   ("SBAS",
    [("C1", "L1", "pseudorange"), ("L1", "L1", "carrier"),
     ("D1", "L1", "doppler"), ("S1", "L1", "snr"),
     ("C5", "L5", "pseudorange"), ("L5", "L5", "carrier"),
     ("D5", "L5", "doppler"), ("S5", "L5", "snr")])]

/-- The key view of a RINEX 2 per-satellite dictionary, in creation order:
`'index'`, `'time'`, then the lazily-added observation codes
(`rnx_sat.keys()` in the source). -/
def r2SatKeys (e : R2Entry) : List String :=
  "index" :: "time" :: e.obs.map Prod.fst

/-- The transformed per-satellite namespace produced by
`transform_values_from_RINEX2_obs`: the `signals` mapping (signal id to a
namespace of measurement-name/value-array bindings) plus the copied time
and index arrays. -/
structure R2TransformedSat where
  signals : List (String × List (String × List (Option ℚ)))
  time : List PyDatetime
  index : List Nat
  deriving DecidableEq, Repr

/-- The `for obs_name, mapping in OBSERVATION_DATATYPES.items()` loop of
`transform_values_from_RINEX2_obs` (rinex2.py lines 259-264).  The loop
variable `obs_name` iterates the OUTER keys, i.e. the constellation names;
when such a name does occur among a satellite's record keys, the source
evaluates `mapping['signal']` where `mapping` is the inner
code-to-datatype table, which has no key `'signal'` — a `KeyError`. -/
def r2TransformSatGo (rnx : R2Entry)
    (sat : List (String × List (String × List (Option ℚ)))) :
    List (String × List (String × String × String)) →
    Except PyErr (List (String × List (String × List (Option ℚ))))
  | [] => .ok sat
  | p :: rest =>
    if p.1 ∈ r2SatKeys rnx then
      match alookup "signal" p.2 with
      | none => .error .keyError
      | some _ => .error .keyError
    else r2TransformSatGo rnx sat rest

/-- Transformation of one satellite's record: the signals mapping starts
empty, the datatype loop runs, then `time` and `index` are copied (both
keys are always present on a record built by `parse_RINEX2_obs_data`). -/
def r2TransformSat (rnx : R2Entry) : Except PyErr R2TransformedSat :=
  match r2TransformSatGo rnx [] OBSERVATION_DATATYPES with
  | .error e => .error e
  | .ok signals => .ok ⟨signals, rnx.time, rnx.index⟩

/-- Embedding of `transform_values_from_RINEX2_obs(rinex_data)`
(rinex2.py lines 237-269). -/
def transform_values_from_RINEX2_obs (rinex_data : R2Data) :
    Except PyErr (List (String × R2TransformedSat)) :=
  match rinex_data with
  | [] => .ok []
  | (sat_id, rnx) :: rest =>
    match r2TransformSat rnx with
    | .error e => .error e
    | .ok sat =>
      match transform_values_from_RINEX2_obs rest with
      | .error e => .error e
      | .ok out => .ok ((sat_id, sat) :: out)

/-!
## Clock-file module (src/python/rinex_utils/clk.py)

clk.py line 1 reads `from rinex_utils.rinex3 import parse_RINEX3_header,
parse_value`.  The attributes of the module `rinex_utils.rinex3` are its
imported names (`numpy`, `array`, `nan`, `datetime64`, `datetime`) and its
own definitions; no attribute `parse_value` exists, so loading the clk
module raises `ImportError` before any of its functions can be called.
The two clk functions are therefore modelled as failing with
`importError` for every input; their bodies are unreachable (and could
not be embedded anyway, since `parse_value` names no existing function).
-/

/-- The attribute names of module `rinex_utils.rinex3` (rinex3.py):
imported names and top-level definitions. -/
def rinex3_module_attributes : List String :=
  ["numpy", "array", "nan", "datetime64", "datetime",
   "CONSTELLATION_IDS", "OBSERVATION_DATATYPES",
   "parse_RINEX3_header", "parse_RINEX3_obs_data",
   "transform_values_from_RINEX3_obs", "parse_RINEX3_obs_file"]

/-- The names clk.py imports from `rinex_utils.rinex3` (clk.py line 1). -/
def clk_imports_from_rinex3 : List String :=
  ["parse_RINEX3_header", "parse_value"]

/-- Whether the import statement of clk.py succeeds: every imported name
must be an attribute of the rinex3 module. -/
def clk_module_import_ok : Bool :=
  clk_imports_from_rinex3.all (fun n => rinex3_module_attributes.contains n)

/-- Model of `parse_RINEX3_clk_data(lines, designators)` (clk.py lines 53-95): the
function is unreachable because the module import fails; the body (which
would call the non-existent `parse_value`) is never executed. -/
def parse_RINEX3_clk_data (_lines : List String) (_designators : List String) :
    Except PyErr (List (String × List PyDatetime × List (List (Option ℚ)))) :=
  if clk_module_import_ok then
    -- unreachable: the import of `parse_value` fails at module load
    .ok []
  else .error .importError

/-- Model of `parse_RINEX3_clk_file(filepath, designators)` (clk.py lines 6-51),
on the file's lines: unreachable for the same reason. -/
def parse_RINEX3_clk_file (_lines : List String) (_designators : List String) :
    Except PyErr (List (String × List PyDatetime × List (List (Option ℚ)))) :=
  if clk_module_import_ok then
    .ok []
  else .error .importError

/-- Well-formedness of one satellite entry relative to the per-system
observation-type catalog: the entry's observation keys are exactly the
catalog list of the satellite's system letter, and every value list has
the same length as the epoch-index list. -/
def r3EntryOk (sys : List (String × List String)) (sat : String) (e : R3Entry) : Prop :=
  ∃ ts, alookup (pySlice sat 0 1) sys = some ts ∧ e.obs.map Prod.fst = ts ∧
    ∀ p ∈ e.obs, (p.2 : List (Option ℚ)).length = e.index.length

/-- Well-formedness of the parser's data dictionary. -/
def r3DataOk (sys : List (String × List String)) (data : R3Data) : Prop :=
  ∀ p ∈ data, r3EntryOk sys p.1 p.2

/-- Validity of the per-system observation-type catalog: each system's
declared list is duplicate-free and contains no code literally equal to
"index" (both hold for catalogs read from well-formed RINEX 3 headers,
where codes are three-character strings; the second condition is what
makes the structural entry model faithful to the Python dictionary). -/
def r3SysOk (sys : List (String × List String)) : Prop :=
  ∀ p ∈ sys, (p.2 : List String).Nodup ∧ "index" ∉ p.2

/-- The pairs of `l` carrying epoch value `k`, in order. -/
def sp3FilterK {α : Type} (k : ℚ) (l : List (ℚ × α)) : List (ℚ × α) :=
  l.filter (fun x => decide (x.1 = k))

instance : IsTotal String (fun a b => a ≤ b) := ⟨fun a b => le_total a b⟩

instance : IsTrans String (fun a b => a ≤ b) := ⟨fun _ _ _ => le_trans⟩

instance : IsAntisymm String (fun a b => a ≤ b) := ⟨fun _ _ => le_antisymm⟩

/-!
## Concrete inputs for the claim theorems

RINEX 2 epoch lines place the two-digit year in columns [0:4), month
[4:7), day [7:10), hour [10:13), minute [13:16), seconds [16:25), flag
[25:28), satellite count [29:32), and the satellite ids from column 32 in
three-character slots.  RINEX 3 epoch lines start with the marker `>` and
carry year [2:6), month [7:9), day [10:12), hour [13:15), minute [16:18),
seconds [19:29), flag [30:32) and satellite count [32:35).
-/

/-- Two RINEX 2 epochs for satellite `G 7`: at the first, code C1 carries
a value and L1 is blank; at the second, C1 is blank and L1 carries a
value. -/
def c1Lines : List String :=
  ["  22  1  1  0  0 0.000000  0   1G 7",
   "  23619095.450",
   "  22  1  1  0  0 0.000000  0   1G 7",
   "                  23619095.450"]

/-- A RINEX 2 epoch declaring one satellite whose record line never
follows: the file ends one physical line short of the logical record. -/
def c4Lines : List String :=
  ["  22  1  1  0  0 0.000000  0   1G 7"]

/-- Seven observation codes make one logical record span two physical
lines; only one follows the epoch line (`k - 1` of the required `k`). -/
def c4bLines : List String :=
  ["  22  1  1  0  0 0.000000  0   1G 7",
   "  23619095.450"]

/-- The seven-code observation list for the two-physical-line record. -/
def c4bObs : List String := ["C1", "P1", "L1", "D1", "S1", "C2", "P2"]

/-- A RINEX 2 epoch line with two-digit year 98 and no satellites. -/
def c7Line : String := "  98  1  1  0  0 0.000000  0   0"

/-- RINEX 2 input whose satellite id slot reads `G 7` (blank in place of
the leading zero). -/
def c9Lines2 : List String :=
  ["  22  1  1  0  0 0.000000  0   1G 7",
   "  23619095.450"]

/-- RINEX 3 input whose satellite record line starts with the id `G 7`. -/
def c9Lines3 : List String :=
  ["> 2022 01 01 00 00  0.0000000  0  1",
   "G 7  23619095.450"]

/-- One-system observation catalog for the RINEX 3 inputs. -/
def r3wSys : List (String × List String) := [("G", ["C1C"])]

/-- RINEX 3 input for the alignment witness: one epoch, one satellite,
its only observation field blank. -/
def r3wLines : List String :=
  ["> 2022 01 01 00 00  0.0000000  0  1",
   "G 7"]

/-- The parse result of `r3wLines` under `r3wSys`. -/
def r3wRes : R3Data × List PyDatetime :=
  ([("G 7", ⟨[0], [("C1C", [none])]⟩)], [⟨2022, 1, 1, 0, 0, 0, 0⟩])

/-- An SP3 position line whose x field reads exactly
`nan_value - eps = 999999.998999`, with y and z at the sentinel value
itself and a zero clock. -/
def c6Line : String :=
  "PG01 999999.998999 999999.999999 999999.999999      0.000000"

/-- A five-code observation list: an exact multiple of the five-slot
per-line capacity. -/
def c5Obs : List String := ["C1", "P1", "L1", "D1", "S1"]

/-- Input data for the transform witness: one satellite with one
observation series. -/
def c2Data : R2Data :=
  [("G07", ⟨[⟨2022, 1, 1, 0, 0, 0, 0⟩], [0], [("C1", [some (mkRat 23619095450 1000)])]⟩)]

/-!
## Lemmas and claim theorems
-/

theorem qAdd_eq (a b : ℚ) : qAdd a b = a + b := (Rat.add_def' a b).symm

theorem qSub_eq (a b : ℚ) : qSub a b = a - b := (Rat.sub_def' a b).symm

theorem qMul_eq (a b : ℚ) : qMul a b = a * b := by
  rw [Rat.mul_def, Rat.normalize_eq_mkRat, qMul]

theorem pyAbs_eq (q : ℚ) : pyAbs q = |q| := by
  unfold pyAbs
  rcases lt_or_le q 0 with h | h
  · simp [h, abs_of_neg h]
  · simp [not_lt.mpr h, abs_of_nonneg h]

theorem sp3_nan_value_eq : sp3_nan_value = 999999.999999 := by
  norm_num [sp3_nan_value, mkRat, Rat.normalize_eq_mkRat]

theorem sp3_eps_eq : sp3_eps = 1e-3 := by
  norm_num [sp3_eps, mkRat, Rat.normalize_eq_mkRat]

theorem alookup_mem {β : Type} {k : String} {v : β} :
    ∀ {m : List (String × β)}, alookup k m = some v → (k, v) ∈ m := by
  intro m
  induction m with
  | nil => intro h; cases h
  | cons p rest ih =>
    obtain ⟨k1, v1⟩ := p
    intro h
    by_cases hk : k1 = k
    · subst hk
      simp only [alookup, if_pos] at h
      cases h
      exact List.mem_cons_self _ _
    · simp only [alookup] at h
      rw [if_neg hk] at h
      exact List.mem_cons_of_mem _ (ih h)

theorem alookup_eq_some_of_mem_keys {β : Type} {k : String} :
    ∀ {m : List (String × β)}, k ∈ m.map Prod.fst → ∃ v, alookup k m = some v := by
  intro m
  induction m with
  | nil => intro h; cases h
  | cons p rest ih =>
    intro h
    by_cases hk : p.1 = k
    · exact ⟨p.2, by simp [alookup, hk]⟩
    · simp only [List.map_cons, List.mem_cons] at h
      rcases h with h | h
      · exact absurd h.symm hk
      · rcases ih h with ⟨v, hv⟩
        exact ⟨v, by simp [alookup, hk, hv]⟩

theorem mem_of_alookup_nodup {β : Type} {k : String} {v : β} :
    ∀ {m : List (String × β)}, (m.map Prod.fst).Nodup → (k, v) ∈ m →
      alookup k m = some v := by
  intro m
  induction m with
  | nil => intro _ h; cases h
  | cons p rest ih =>
    intro hnd h
    simp only [List.map_cons, List.nodup_cons] at hnd
    rcases List.mem_cons.mp h with h | h
    · cases h
      simp [alookup]
    · have hk : p.1 ≠ k := by
        intro he
        exact hnd.1 (he ▸ (List.mem_map.mpr ⟨(k, v), h, rfl⟩))
      simp [alookup, hk, ih hnd.2 h]

theorem aappend_isSome {β : Type} {k : String} {x : β} :
    ∀ {m : List (String × List β)}, k ∈ m.map Prod.fst →
      ∃ m', aappend k x m = some m' := by
  intro m
  induction m with
  | nil => intro h; cases h
  | cons p rest ih =>
    intro h
    by_cases hk : p.1 = k
    · exact ⟨(p.1, p.2 ++ [x]) :: rest, by simp [aappend, hk]⟩
    · simp only [List.map_cons, List.mem_cons] at h
      rcases h with h | h
      · exact absurd h.symm hk
      · rcases ih h with ⟨m', hm'⟩
        exact ⟨(p.1, p.2) :: m', by simp [aappend, hk, hm']⟩

theorem aappend_keys {β : Type} {k : String} {x : β} :
    ∀ {m m' : List (String × List β)}, aappend k x m = some m' →
      m'.map Prod.fst = m.map Prod.fst := by
  intro m
  induction m with
  | nil => intro m' h; cases h
  | cons p rest ih =>
    obtain ⟨k1, v1⟩ := p
    intro m' h
    by_cases hk : k1 = k
    · subst hk
      simp only [aappend, if_pos] at h
      cases h
      simp
    · simp only [aappend] at h
      rw [if_neg hk] at h
      cases hr : aappend k x rest with
      | none => rw [hr] at h; cases h
      | some r =>
        rw [hr] at h
        cases h
        simp [ih hr]

theorem aappend_alookup_self {β : Type} {k : String} {x : β} :
    ∀ {m m' : List (String × List β)}, aappend k x m = some m' →
      alookup k m' = (alookup k m).map (fun vs => vs ++ [x]) := by
  intro m
  induction m with
  | nil => intro m' h; cases h
  | cons p rest ih =>
    intro m' h
    by_cases hk : p.1 = k
    · simp only [aappend, hk, if_pos] at h
      cases h
      simp [alookup, hk]
    · simp only [aappend] at h
      rw [if_neg hk] at h
      cases hr : aappend k x rest with
      | none => rw [hr] at h; cases h
      | some r =>
        rw [hr] at h
        cases h
        simp [alookup, hk, ih hr]

theorem aappend_alookup_other {β : Type} {k k' : String} {x : β} (hne : k' ≠ k) :
    ∀ {m m' : List (String × List β)}, aappend k x m = some m' →
      alookup k' m' = alookup k' m := by
  intro m
  induction m with
  | nil => intro m' h; cases h
  | cons p rest ih =>
    obtain ⟨k1, v1⟩ := p
    intro m' h
    by_cases hk : k1 = k
    · subst hk
      simp only [aappend, if_pos] at h
      cases h
      have hne' : k1 ≠ k' := fun he => hne he.symm
      simp [alookup, hne']
    · simp only [aappend] at h
      rw [if_neg hk] at h
      cases hr : aappend k x rest with
      | none => rw [hr] at h; cases h
      | some r =>
        rw [hr] at h
        cases h
        by_cases hp : k1 = k'
        · simp [alookup, hp]
        · simp [alookup, hp, ih hr]

theorem aset_mem {β : Type} {k : String} {v : β} {p : String × β} :
    ∀ {m : List (String × β)}, p ∈ aset k v m → p = (k, v) ∨ p ∈ m := by
  intro m
  induction m with
  | nil =>
    intro h
    simp only [aset, List.mem_singleton] at h
    exact Or.inl h
  | cons q rest ih =>
    intro h
    by_cases hk : q.1 = k
    · simp only [aset, hk, if_pos, List.mem_cons] at h
      rcases h with h | h
      · exact Or.inl h
      · exact Or.inr (List.mem_cons_of_mem _ h)
    · simp only [aset] at h
      rw [if_neg hk] at h
      rcases List.mem_cons.mp h with h | h
      · exact Or.inr (h ▸ List.mem_cons_self _ _)
      · rcases ih h with h | h
        · exact Or.inl h
        · exact Or.inr (List.mem_cons_of_mem _ h)

/-!
## Alignment invariant of the RINEX 3 parser
-/

theorem r3ApplyObs_ok {padded : String} :
    ∀ {ts : List String} {j : Nat} {m m' : List (String × List (Option ℚ))},
      r3ApplyObs padded j ts m = .ok m' →
      (∀ t ∈ ts, t ∈ m.map Prod.fst) → ts.Nodup →
      m'.map Prod.fst = m.map Prod.fst ∧
      (∀ k, k ∉ ts → alookup k m' = alookup k m) ∧
      (∀ k, k ∈ ts → ∃ vs v, alookup k m = some vs ∧ alookup k m' = some (vs ++ [v])) := by
  intro ts
  induction ts with
  | nil =>
    intro j m m' h _ _
    simp only [r3ApplyObs] at h
    cases h
    exact ⟨rfl, fun _ _ => rfl, fun k hk => absurd hk (List.not_mem_nil k)⟩
  | cons t ts ih =>
    intro j m m' h hsub hnd
    simp only [r3ApplyObs] at h
    cases hdec : rinex3_parse_obs_field (pySlice padded (j * 16) ((j + 1) * 16)) with
    | error e =>
      simp only [hdec] at h
      exact Except.noConfusion h
    | ok v =>
      simp only [hdec] at h
      have htm : t ∈ m.map Prod.fst := hsub t (List.mem_cons_self _ _)
      obtain ⟨m₁, hm₁⟩ := aappend_isSome (x := v) htm
      simp only [hm₁] at h
      have hkeys₁ : m₁.map Prod.fst = m.map Prod.fst := aappend_keys hm₁
      have hndtail : ts.Nodup := (List.nodup_cons.mp hnd).2
      have htnotin : t ∉ ts := (List.nodup_cons.mp hnd).1
      have hsub' : ∀ u ∈ ts, u ∈ m₁.map Prod.fst := by
        intro u hu
        rw [hkeys₁]
        exact hsub u (List.mem_cons_of_mem _ hu)
      obtain ⟨hk', hout, hin⟩ := ih h hsub' hndtail
      refine ⟨hk'.trans hkeys₁, ?_, ?_⟩
      · intro k hk
        have hkt : k ≠ t := fun he => hk (he ▸ List.mem_cons_self _ _)
        have hkts : k ∉ ts := fun hmem => hk (List.mem_cons_of_mem _ hmem)
        rw [hout k hkts, aappend_alookup_other hkt hm₁]
      · intro k hk
        rcases List.mem_cons.mp hk with hke | hkts
        · subst hke
          obtain ⟨vs, hvs⟩ := alookup_eq_some_of_mem_keys htm
          refine ⟨vs, v, hvs, ?_⟩
          rw [hout k htnotin, aappend_alookup_self hm₁, hvs]
          rfl
        · have hkt : k ≠ t := fun he => htnotin (he ▸ hkts)
          obtain ⟨vs, v', hvs, hvs'⟩ := hin k hkts
          rw [aappend_alookup_other hkt hm₁] at hvs
          exact ⟨vs, v', hvs, hvs'⟩

theorem r3ProcessSatLine_ok {line : String} {sys : List (String × List String)}
    {i : Nat} {data data' : R3Data} (hsys : r3SysOk sys)
    (h : r3ProcessSatLine line sys i data = .ok data') (hd : r3DataOk sys data) :
    r3DataOk sys data' := by
  simp only [r3ProcessSatLine] at h
  by_cases hempty : pySlice line 0 3 = ""
  · rw [if_pos hempty] at h; cases h
  · rw [if_neg hempty] at h
    cases hlook : alookup (pySlice (pySlice line 0 3) 0 1) sys with
    | none =>
      simp only [hlook] at h
      exact Except.noConfusion h
    | some obs_types =>
      simp only [hlook] at h
      have hndts : obs_types.Nodup := (hsys _ (alookup_mem hlook)).1
      cases hfind : alookup (pySlice line 0 3) data with
      | some e₀ =>
        simp only [hfind] at h
        obtain ⟨ts₀, hts₀, hkeys₀, hlen₀⟩ := hd _ (alookup_mem hfind)
        have hts : ts₀ = obs_types := by
          rw [hts₀] at hlook
          exact Option.some.inj hlook
        subst hts
        cases happ : r3ApplyObs
            (String.mk ((pySliceFrom line 3).toList ++
              List.replicate (ts₀.length * 16 - (pySliceFrom line 3).toList.length) ' '))
            0 ts₀ e₀.obs with
        | error e =>
          simp only [happ] at h
          exact Except.noConfusion h
        | ok obs' =>
          simp only [happ] at h
          cases h
          have hsub : ∀ t ∈ ts₀, t ∈ e₀.obs.map Prod.fst := by
            intro t ht; rw [hkeys₀]; exact ht
          obtain ⟨hkeys', _, hin⟩ := r3ApplyObs_ok happ hsub hndts
          intro p hp
          rcases aset_mem hp with hpe | hpe
          · subst hpe
            refine ⟨ts₀, hlook, by rw [hkeys', hkeys₀], ?_⟩
            intro q hq
            have hndk : (obs'.map Prod.fst).Nodup := by
              rw [hkeys', hkeys₀]; exact hndts
            have hqk : q.1 ∈ ts₀ := by
              have hq1 : q.1 ∈ obs'.map Prod.fst := List.mem_map.mpr ⟨q, hq, rfl⟩
              rw [hkeys', hkeys₀] at hq1
              exact hq1
            obtain ⟨vs, v, hvs, hvs'⟩ := hin q.1 hqk
            have hql : alookup q.1 obs' = some q.2 := mem_of_alookup_nodup hndk hq
            rw [hql] at hvs'
            have hq2 : q.2 = vs ++ [v] := Option.some.inj hvs'
            have hvslen : vs.length = e₀.index.length := hlen₀ _ (alookup_mem hvs)
            simp [hq2, hvslen]
          · exact hd _ hpe
      | none =>
        simp only [hfind] at h
        cases happ : r3ApplyObs
            (String.mk ((pySliceFrom line 3).toList ++
              List.replicate (obs_types.length * 16 - (pySliceFrom line 3).toList.length) ' '))
            0 obs_types (obs_types.map (fun t => (t, ([] : List (Option ℚ))))) with
        | error e =>
          simp only [happ] at h
          exact Except.noConfusion h
        | ok obs' =>
          simp only [happ] at h
          cases h
          have hkeys₀ : (obs_types.map (fun t => (t, ([] : List (Option ℚ))))).map Prod.fst
              = obs_types := by
            simp [Function.comp_def]
          have hsub : ∀ t ∈ obs_types,
              t ∈ (obs_types.map (fun t => (t, ([] : List (Option ℚ))))).map Prod.fst := by
            intro t ht; rw [hkeys₀]; exact ht
          obtain ⟨hkeys', _, hin⟩ := r3ApplyObs_ok happ hsub hndts
          intro p hp
          rcases aset_mem hp with hpe | hpe
          · subst hpe
            refine ⟨obs_types, hlook, by rw [hkeys', hkeys₀], ?_⟩
            intro q hq
            have hndk : (obs'.map Prod.fst).Nodup := by
              rw [hkeys', hkeys₀]; exact hndts
            have hqk : q.1 ∈ obs_types := by
              have hq1 : q.1 ∈ obs'.map Prod.fst := List.mem_map.mpr ⟨q, hq, rfl⟩
              rw [hkeys', hkeys₀] at hq1
              exact hq1
            obtain ⟨vs, v, hvs, hvs'⟩ := hin q.1 hqk
            have hql : alookup q.1 obs' = some q.2 := mem_of_alookup_nodup hndk hq
            rw [hql] at hvs'
            have hq2 : q.2 = vs ++ [v] := Option.some.inj hvs'
            have hvsmem : (q.1, vs) ∈ obs_types.map (fun t => (t, ([] : List (Option ℚ)))) :=
              alookup_mem hvs
            have hvslen : vs = [] := by
              rcases List.mem_map.mp hvsmem with ⟨t, _, ht⟩
              cases ht
              rfl
            simp [hq2, hvslen]
          · exact hd _ hpe

theorem r3ProcessSats_ok {sys : List (String × List String)} {i : Nat}
    (hsys : r3SysOk sys) :
    ∀ {n : Nat} {lines : List String} {data data' : R3Data}
      {rest : Option (List String)},
      r3ProcessSats sys i n lines data = .ok (data', rest) →
      r3DataOk sys data → r3DataOk sys data' := by
  intro n
  induction n with
  | zero =>
    intro lines data data' rest h hd
    simp only [r3ProcessSats] at h
    cases h
    exact hd
  | succ n ih =>
    intro lines data data' rest h hd
    match lines with
    | [] =>
      simp only [r3ProcessSats] at h
      cases h
      exact hd
    | line :: restl =>
      simp only [r3ProcessSats] at h
      cases hp : r3ProcessSatLine line sys i data with
      | error e =>
        simp only [hp] at h
        exact Except.noConfusion h
      | ok d₂ =>
        simp only [hp] at h
        exact ih h (r3ProcessSatLine_ok hsys hp hd)

theorem r3Loop_ok {sys : List (String × List String)} (hsys : r3SysOk sys) :
    ∀ {fuel : Nat} {lines : List String} {data : R3Data} {i : Nat}
      {time : List PyDatetime} {res : R3Data × List PyDatetime},
      r3Loop sys fuel lines data i time = .ok res →
      r3DataOk sys data → r3DataOk sys res.1 := by
  intro fuel
  induction fuel with
  | zero =>
    intro lines data i time res h hd
    match lines with
    | [] =>
      simp only [r3Loop] at h
      cases h
      exact hd
    | _ :: _ => simp [r3Loop] at h
  | succ fuel ih =>
    intro lines data i time res h hd
    match lines with
    | [] =>
      simp only [r3Loop] at h
      cases h
      exact hd
    | line :: rest =>
      simp only [r3Loop] at h
      cases hh : r3EpochHeader line with
      | error e =>
        simp only [hh] at h
        exact Except.noConfusion h
      | ok p =>
        obtain ⟨dt, num_sats⟩ := p
        simp only [hh] at h
        cases hs : r3ProcessSats sys i num_sats.toNat rest data with
        | error e =>
          simp only [hs] at h
          exact Except.noConfusion h
        | ok pr =>
          obtain ⟨data', rest'⟩ := pr
          cases rest' with
          | none =>
            simp only [hs] at h
            cases h
            exact r3ProcessSats_ok hsys hs hd
          | some rest'' =>
            simp only [hs] at h
            exact ih h (r3ProcessSats_ok hsys hs hd)

/-!
## Idempotence of the SP3 multi-file merge

The key facts: the insertion sort used to model `argsort` is stable
(filtering the sorted list down to one epoch value recovers the original
relative order), and the strict-increase duplicate removal of two sorted
lists agrees whenever, for every epoch value, the first occurrence of that
value is the same pair.  Together these give that merging a file with an
identical copy of itself equals merging the file alone.
-/

theorem sp3FilterK_orderedInsert_ne {α : Type} {k : ℚ} {a : ℚ × α}
    (ha : a.1 ≠ k) : ∀ l : List (ℚ × α),
    sp3FilterK k (List.orderedInsert sp3KeyLe a l) = sp3FilterK k l := by
  intro l
  induction l with
  | nil => simp [sp3FilterK, List.orderedInsert, ha]
  | cons b t ih =>
    by_cases hle : sp3KeyLe a b
    · simp [sp3FilterK, List.orderedInsert, hle, ha] at ih ⊢
    · simp only [List.orderedInsert, if_neg hle]
      by_cases hb : b.1 = k
      · simp [sp3FilterK, hb] at ih ⊢
        exact ih
      · simp [sp3FilterK, hb] at ih ⊢
        exact ih

theorem sp3FilterK_orderedInsert_eq {α : Type} {k : ℚ} {a : ℚ × α}
    (ha : a.1 = k) : ∀ l : List (ℚ × α), l.Sorted sp3KeyLe →
    sp3FilterK k (List.orderedInsert sp3KeyLe a l) = a :: sp3FilterK k l := by
  intro l
  induction l with
  | nil => simp [sp3FilterK, List.orderedInsert, ha]
  | cons b t ih =>
    intro hs
    by_cases hle : sp3KeyLe a b
    · simp [sp3FilterK, List.orderedInsert, hle, ha]
    · have hb : b.1 ≠ k := by
        intro hbk
        exact hle (le_of_eq (ha ▸ hbk : b.1 = a.1).symm)
      simp only [List.orderedInsert, if_neg hle]
      have hst : t.Sorted sp3KeyLe := (List.sorted_cons.mp hs).2
      simp [sp3FilterK, hb] at ih ⊢
      simpa [sp3FilterK] using ih hst

theorem sp3FilterK_sort {α : Type} (k : ℚ) :
    ∀ l : List (ℚ × α), sp3FilterK k (sp3Sort l) = sp3FilterK k l := by
  intro l
  induction l with
  | nil => rfl
  | cons a t ih =>
    unfold sp3Sort at ih ⊢
    simp only [List.insertionSort]
    by_cases ha : a.1 = k
    · rw [sp3FilterK_orderedInsert_eq ha _ (List.sorted_insertionSort sp3KeyLe t), ih]
      simp [sp3FilterK, ha]
    · rw [sp3FilterK_orderedInsert_ne ha, ih]
      simp [sp3FilterK, ha]

theorem sp3DedupGo_sorted {α : Type} :
    ∀ (l : List (ℚ × α)) (p : ℚ × α), l.Sorted sp3KeyLe → (∀ x ∈ l, p.1 ≤ x.1) →
    sp3DedupGo p l = sp3DedupSorted (l.dropWhile (fun x => decide (x.1 = p.1))) := by
  intro l
  induction l with
  | nil => intro p _ _; rfl
  | cons b t ih =>
    intro p hs hb
    have hpb : p.1 ≤ b.1 := hb b (List.mem_cons_self _ _)
    by_cases hlt : p.1 < b.1
    · have hbp : ¬ (b.1 = p.1) := fun he => absurd (he ▸ hlt) (lt_irrefl _)
      simp only [sp3DedupGo, if_pos hlt, List.dropWhile]
      rw [decide_eq_false hbp]
      rfl
    · have hbp : b.1 = p.1 := le_antisymm (not_lt.mp hlt) hpb
      simp only [sp3DedupGo, if_neg hlt, List.dropWhile]
      rw [decide_eq_true hbp]
      have hst : t.Sorted sp3KeyLe := (List.sorted_cons.mp hs).2
      have hbt : ∀ x ∈ t, b.1 ≤ x.1 := (List.sorted_cons.mp hs).1
      rw [ih b hst hbt]
      simp only [hbp]

theorem head_mem_of_head? {α : Type} {l : List α} {x : α} (h : l.head? = some x) :
    x ∈ l := by
  cases l with
  | nil => cases h
  | cons a t =>
    simp only [List.head?] at h
    cases h
    exact List.mem_cons_self _ _

theorem sorted_dropWhile {α : Type} {r : α → α → Prop} (p : α → Bool) :
    ∀ {l : List α}, l.Sorted r → (l.dropWhile p).Sorted r := by
  intro l
  induction l with
  | nil => intro h; exact h
  | cons a t ih =>
    intro h
    by_cases hp : p a
    · simp only [List.dropWhile, hp]
      exact ih (List.sorted_cons.mp h).2
    · simp only [List.dropWhile, Bool.not_eq_true] at hp ⊢
      rw [hp]
      exact h

theorem sp3_dropWhile_gt {α : Type} {a : ℚ} :
    ∀ l : List (ℚ × α), l.Sorted sp3KeyLe → (∀ x ∈ l, a ≤ x.1) →
    ∀ x ∈ l.dropWhile (fun y => decide (y.1 = a)), a < x.1 := by
  intro l
  induction l with
  | nil => intro _ _ x hx; cases hx
  | cons b t ih =>
    intro hs hb x hx
    by_cases hba : b.1 = a
    · simp only [List.dropWhile, decide_eq_true hba] at hx
      exact ih (List.sorted_cons.mp hs).2
        (fun y hy => hb y (List.mem_cons_of_mem _ hy)) x hx
    · simp only [List.dropWhile, decide_eq_false hba] at hx
      have hab : a < b.1 :=
        lt_of_le_of_ne (hb b (List.mem_cons_self _ _)) (fun he => hba he.symm)
      rcases List.mem_cons.mp hx with he | hxt
      · exact he ▸ hab
      · exact lt_of_lt_of_le hab ((List.sorted_cons.mp hs).1 x hxt)

theorem sp3FilterK_dropWhile_ne {α : Type} {k a : ℚ} (hka : k ≠ a) :
    ∀ l : List (ℚ × α),
    sp3FilterK k (l.dropWhile (fun y => decide (y.1 = a))) = sp3FilterK k l := by
  intro l
  induction l with
  | nil => rfl
  | cons b t ih =>
    by_cases hba : b.1 = a
    · have hbk : ¬ (b.1 = k) := fun he => hka (he ▸ hba : k = a)
      simp only [List.dropWhile, decide_eq_true hba]
      rw [ih]
      simp [sp3FilterK, hbk]
    · simp only [List.dropWhile, decide_eq_false hba]

theorem dropWhile_length_le {α : Type} (p : α → Bool) :
    ∀ l : List α, (l.dropWhile p).length ≤ l.length := by
  intro l
  induction l with
  | nil => exact le_refl _
  | cons a t ih =>
    by_cases hp : p a
    · simp only [List.dropWhile, hp]
      exact Nat.le_succ_of_le ih
    · simp only [List.dropWhile, Bool.not_eq_true] at hp ⊢
      rw [hp]

theorem sp3DedupSorted_congr {α : Type} :
    ∀ (n : Nat) (s t : List (ℚ × α)), s.length ≤ n →
    s.Sorted sp3KeyLe → t.Sorted sp3KeyLe →
    (∀ k, (sp3FilterK k s).head? = (sp3FilterK k t).head?) →
    sp3DedupSorted s = sp3DedupSorted t := by
  intro n
  induction n with
  | zero =>
    intro s t hlen _ _ hH
    match s, hlen with
    | [], _ =>
      match t with
      | [] => rfl
      | b :: t' =>
        have hb := hH b.1
        simp [sp3FilterK] at hb
  | succ n ih =>
    intro s t hlen hss hst hH
    match s with
    | [] =>
      match t with
      | [] => rfl
      | b :: t' =>
        have hb := hH b.1
        simp [sp3FilterK] at hb
    | a :: s' =>
      match t with
      | [] =>
        have hb := hH a.1
        simp [sp3FilterK] at hb
      | b :: t' =>
        -- the two heads carry the same minimal epoch and are in fact equal
        have hfa : (sp3FilterK a.1 (a :: s')).head? = some a := by
          simp [sp3FilterK]
        have hfb : (sp3FilterK b.1 (b :: t')).head? = some b := by
          simp [sp3FilterK]
        have hat : a ∈ b :: t' := by
          have h1 : (sp3FilterK a.1 (b :: t')).head? = some a := ((hH a.1).symm.trans hfa)
          exact List.mem_of_mem_filter (head_mem_of_head? h1)
        have hbs : b ∈ a :: s' := by
          have h1 : (sp3FilterK b.1 (a :: s')).head? = some b := ((hH b.1).trans hfb)
          exact List.mem_of_mem_filter (head_mem_of_head? h1)
        have hba : b.1 ≤ a.1 := by
          rcases List.mem_cons.mp hat with he | hmem
          · exact le_of_eq (congrArg Prod.fst he).symm
          · exact (List.sorted_cons.mp hst).1 a hmem
        have hab : a.1 ≤ b.1 := by
          rcases List.mem_cons.mp hbs with he | hmem
          · exact le_of_eq (congrArg Prod.fst he).symm
          · exact (List.sorted_cons.mp hss).1 b hmem
        have hk : a.1 = b.1 := le_antisymm hab hba
        have haeb : a = b := by
          have hfb' : (sp3FilterK a.1 (b :: t')).head? = some b := by
            simp [sp3FilterK, hk.symm]
          have h2 := (hH a.1).trans hfb'
          rw [hfa] at h2
          exact Option.some.inj h2
        subst haeb
        -- reduce both sides to the dropWhile tails and recurse
        have hbs' : ∀ x ∈ s', a.1 ≤ x.1 := (List.sorted_cons.mp hss).1
        have hbt' : ∀ x ∈ t', a.1 ≤ x.1 := (List.sorted_cons.mp hst).1
        have hss' : s'.Sorted sp3KeyLe := (List.sorted_cons.mp hss).2
        have hst' : t'.Sorted sp3KeyLe := (List.sorted_cons.mp hst).2
        show a :: sp3DedupGo a s' = a :: sp3DedupGo a t'
        rw [sp3DedupGo_sorted s' a hss' hbs', sp3DedupGo_sorted t' a hst' hbt']
        congr 1
        refine ih _ _ ?_ ?_ ?_ ?_
        · have h1 : (s'.dropWhile (fun y => decide (y.1 = a.1))).length ≤ s'.length :=
            dropWhile_length_le _ s'
          have h2 : s'.length ≤ n := by
            simp only [List.length_cons] at hlen
            omega
          exact le_trans h1 h2
        · exact sorted_dropWhile _ hss'
        · exact sorted_dropWhile _ hst'
        · intro k
          by_cases hkk : k = a.1
          · have hs0 : sp3FilterK k (s'.dropWhile (fun y => decide (y.1 = a.1))) = [] := by
              rw [sp3FilterK, List.filter_eq_nil_iff]
              intro x hx
              have hgt := sp3_dropWhile_gt s' hss' hbs' x hx
              simp only [decide_eq_true_eq]
              intro he
              rw [hkk] at he
              exact absurd (he ▸ hgt) (lt_irrefl _)
            have ht0 : sp3FilterK k (t'.dropWhile (fun y => decide (y.1 = a.1))) = [] := by
              rw [sp3FilterK, List.filter_eq_nil_iff]
              intro x hx
              have hgt := sp3_dropWhile_gt t' hst' hbt' x hx
              simp only [decide_eq_true_eq]
              intro he
              rw [hkk] at he
              exact absurd (he ▸ hgt) (lt_irrefl _)
            rw [hs0, ht0]
          · rw [sp3FilterK_dropWhile_ne hkk, sp3FilterK_dropWhile_ne hkk]
            have hak : ¬ (a.1 = k) := fun he => hkk he.symm
            have hka : ∀ u : List (ℚ × α), sp3FilterK k (a :: u) = sp3FilterK k u := by
              intro u
              simp [sp3FilterK, hak]
            have h3 := hH k
            rw [hka s', hka t'] at h3
            exact h3

theorem sp3MergedPairs_self_append {α : Type} (l : List (ℚ × α)) :
    sp3MergedPairs (l ++ l) = sp3MergedPairs l := by
  unfold sp3MergedPairs
  refine sp3DedupSorted_congr (sp3Sort (l ++ l)).length _ _ (le_refl _)
    (List.sorted_insertionSort _ _) (List.sorted_insertionSort _ _) ?_
  intro k
  rw [sp3FilterK_sort, sp3FilterK_sort]
  show (sp3FilterK k (l ++ l)).head? = (sp3FilterK k l).head?
  have : sp3FilterK k (l ++ l) = sp3FilterK k l ++ sp3FilterK k l := by
    simp [sp3FilterK]
  rw [this]
  cases hf : sp3FilterK k l with
  | nil => rfl
  | cons x xs => rfl

theorem sp3Vehicles_self_pair (f : List (ℚ × Sp3Record)) :
    sp3Vehicles [f, f] = sp3Vehicles [f] := by
  unfold sp3Vehicles
  simp only [List.flatMap_cons, List.flatMap_nil, List.append_nil]
  have hperm : List.Perm
      (List.insertionSort (fun a b : String => a ≤ b)
        ((f.flatMap (fun p => p.2.map Prod.fst) ++
          f.flatMap (fun p => p.2.map Prod.fst)).dedup))
      (List.insertionSort (fun a b : String => a ≤ b)
        ((f.flatMap (fun p => p.2.map Prod.fst)).dedup)) := by
    refine ((List.perm_insertionSort _ _).trans ?_).trans
      (List.perm_insertionSort _ _).symm
    refine (List.perm_ext_iff_of_nodup (List.nodup_dedup _) (List.nodup_dedup _)).mpr ?_
    intro a
    simp
  exact List.eq_of_perm_of_sorted hperm
    (List.sorted_insertionSort _ _) (List.sorted_insertionSort _ _)

/-!
## Claim theorems
-/

/-- C5 (counterexample): for a five-code observation list — an exact
multiple of the five-slot capacity — the parser consumes 2 physical lines
per record, not `ceil(5 / 5) = 1` as the claim states. -/
theorem num_lines_per_sat_exact_multiple_cex :
    num_lines_per_sat c5Obs = 2 ∧ (c5Obs.length + 4) / 5 = 1 ∧ ¬ (2 = 1) := by
  refine ⟨by decide, by decide, by decide⟩

/-- C5 (amended): the number of physical lines consumed per logical
record is `1 + floor(n / 5)`; this equals `ceil(n / 5)` exactly when `n`
is not a multiple of 5, and exceeds it by one (an extra physical line is
read) when `n` is a multiple of 5. -/
theorem num_lines_per_sat_eq (observations : List String) :
    num_lines_per_sat observations =
      if observations.length % 5 = 0 then observations.length / 5 + 1
      else (observations.length + 4) / 5 := by
  unfold num_lines_per_sat
  by_cases h : observations.length % 5 = 0
  · rw [if_pos h]
    omega
  · rw [if_neg h]
    omega

/-- C3 (counterexample): in the RINEX 3 dialect a malformed non-blank
numeric field raises (`float` is called with no try/except), rather than
decoding to missing. -/
theorem rinex3_field_decode_raises_cex :
    rinex3_parse_obs_field "      abc       " = .error .valueError := by
  decide

/-- C3 (amended): in the RINEX 2 dialect, a field whose stripped text
splits into at most two blank-separated tokens never raises: the decode
yields the `float` conversion of the first token, with conversion failure
becoming NaN (`none`) rather than an exception. -/
theorem rinex2_field_decode_no_raise (s tok : String) (rest : List String)
    (hsplit : pySplit (pyStrip s) = tok :: rest) (hlen : rest.length ≤ 1) :
    rinex2_parse_obs_field s = .ok (some (pyFloat tok)) := by
  have hne : pyStrip s ≠ "" := by
    intro he
    rw [he] at hsplit
    have : pySplit "" = [] := by decide
    rw [this] at hsplit
    cases hsplit
  unfold rinex2_parse_obs_field
  simp only [if_neg hne, hsplit]
  match rest, hlen with
  | [], _ => rfl
  | [b], _ => rfl

/-- C3 witness: the malformed field `abc` in the RINEX 2 dialect decodes
to NaN without raising. -/
theorem rinex2_field_decode_no_raise_witness :
    pySplit (pyStrip "  abc  ") = ["abc"] ∧ ([] : List String).length ≤ 1 ∧
    rinex2_parse_obs_field "  abc  " = .ok (some (pyFloat "abc")) :=
  ⟨by decide, by decide,
   rinex2_field_decode_no_raise "  abc  " "abc" [] (by decide) (by decide)⟩

/-- C10: the clock module's import line requests `parse_value` from the
rinex3 module, which has no such attribute, so the module never loads and
neither clock parser can return a result for any input. -/
theorem clk_import_fails :
    clk_module_import_ok = false ∧
    rinex3_module_attributes.contains "parse_value" = false ∧
    (∀ lines designators,
      parse_RINEX3_clk_data lines designators = .error .importError) ∧
    (∀ lines designators,
      parse_RINEX3_clk_file lines designators = .error .importError) := by
  refine ⟨by decide, by decide, ?_, ?_⟩
  · intro lines designators
    unfold parse_RINEX3_clk_data
    rw [if_neg]
    rw [show clk_module_import_ok = false by decide]
    exact Bool.false_ne_true
  · intro lines designators
    unfold parse_RINEX3_clk_file
    rw [if_neg]
    rw [show clk_module_import_ok = false by decide]
    exact Bool.false_ne_true

/-- C6 (counterexample): a field exactly at distance `eps` from the
sentinel magnitude does NOT decode as missing — the sentinel test is a
strict comparison — and the position decoder keeps the literal value
(the y field, at the sentinel itself, is mapped to missing for
contrast). -/
theorem sp3_sentinel_boundary_cex :
    _sp3_test_nan (qSub sp3_nan_value sp3_eps) = false ∧
    (_sp3_parse_position_and_clock c6Line).toOption.map
      (fun r => (r.1, r.2.1.isSome, r.2.2.1.isSome)) = some ("G01", true, false) := by
  refine ⟨by decide, by decide⟩

/-- C6 (amended): the sentinel test holds iff the value is STRICTLY
within `eps` of the sentinel magnitude; at distance exactly `eps` (and at
`eps * 1.01`) the value decodes as the literal number, while strictly
inside (e.g. at `eps / 2`) it decodes as missing. -/
theorem sp3_sentinel_strict_boundary :
    (∀ x nan_value eps : ℚ,
      (_sp3_test_nan x nan_value eps = true ↔ |x - nan_value| < eps)) ∧
    _sp3_test_nan (sp3_nan_value - sp3_eps) = false ∧
    _sp3_test_nan (sp3_nan_value - sp3_eps * (101 / 100)) = false ∧
    _sp3_test_nan (sp3_nan_value - sp3_eps / 2) = true := by
  have hiff : ∀ x nan_value eps : ℚ,
      (_sp3_test_nan x nan_value eps = true ↔ |x - nan_value| < eps) := by
    intro x nv eps
    unfold _sp3_test_nan
    rw [qSub_eq, pyAbs_eq]
    exact decide_eq_true_iff
  refine ⟨hiff, ?_, ?_, ?_⟩
  · rw [← Bool.not_eq_true, hiff, sp3_nan_value_eq, sp3_eps_eq]
    have h1 : (999999.999999 : ℚ) - 1e-3 - 999999.999999 = -(1e-3) := by ring
    rw [h1, abs_neg, abs_of_nonneg (by norm_num)]
    exact lt_irrefl _
  · rw [← Bool.not_eq_true, hiff, sp3_nan_value_eq, sp3_eps_eq]
    have h1 : (999999.999999 : ℚ) - 1e-3 * (101 / 100) - 999999.999999
        = -(1e-3 * (101 / 100)) := by ring
    rw [h1, abs_neg, abs_of_nonneg (by norm_num)]
    norm_num
  · rw [hiff, sp3_nan_value_eq, sp3_eps_eq]
    have h1 : (999999.999999 : ℚ) - 1e-3 / 2 - 999999.999999 = -(1e-3 / 2) := by ring
    rw [h1, abs_neg, abs_of_nonneg (by norm_num)]
    norm_num

/-- C7 (counterexample): a two-digit year 98 with century base 2000
produces calendar year 2098 in the stored epoch, not 1998 as the claim
states. -/
theorem rinex2_century_cex :
    (parse_RINEX2_obs_data [c7Line] [] 2000).toOption.map
      (fun p => p.2.map PyDatetime.year) = some [2098] ∧ (2098 : Int) ≠ 1998 := by
  refine ⟨by decide, by decide⟩

/-- C7 (amended): the RINEX 2 epoch parser always resolves the two-digit
year field as `century + yy`; no magnitude-based century inference takes
place. -/
theorem rinex2_year_eq_century_add_yy (line : String) (century : Int)
    (dt : PyDatetime) (num_sats : Int)
    (h : r2EpochHeader line century = .ok (dt, num_sats)) :
    ∃ yy, pyInt (pySlice line 0 4) = some yy ∧ dt.year = century + yy := by
  unfold r2EpochHeader at h
  cases h0 : pyInt (pySlice line 0 4) with
  | none => rw [h0] at h; exact Except.noConfusion h
  | some yy =>
    rw [h0] at h
    refine ⟨yy, rfl, ?_⟩
    cases h1 : pyInt (pySlice line 4 7) with
    | none => rw [h1] at h; exact Except.noConfusion h
    | some month =>
    rw [h1] at h
    cases h2 : pyInt (pySlice line 7 10) with
    | none => rw [h2] at h; exact Except.noConfusion h
    | some day =>
    rw [h2] at h
    cases h3 : pyInt (pySlice line 10 13) with
    | none => rw [h3] at h; exact Except.noConfusion h
    | some hour =>
    rw [h3] at h
    cases h4 : pyInt (pySlice line 13 16) with
    | none => rw [h4] at h; exact Except.noConfusion h
    | some minute =>
    rw [h4] at h
    cases h5 : pyFloat (pySlice line 16 25) with
    | none => rw [h5] at h; exact Except.noConfusion h
    | some seconds =>
    rw [h5] at h
    simp only at h
    cases h6 : mkDatetime (century + yy) month day hour minute
        (pyTruncInt seconds)
        (pyTruncInt (qMul (qOfInt 1000000) (pyMod1 seconds))) with
    | error e => rw [h6] at h; exact Except.noConfusion h
    | ok dt' =>
      rw [h6] at h
      have hdt : dt'.year = century + yy := by
        unfold mkDatetime at h6
        by_cases hv : 1 ≤ century + yy ∧ century + yy ≤ 9999 ∧ 1 ≤ month ∧ month ≤ 12 ∧
            1 ≤ day ∧ day ≤ daysInMonth (century + yy) month ∧
            0 ≤ hour ∧ hour < 24 ∧ 0 ≤ minute ∧ minute < 60 ∧
            0 ≤ pyTruncInt seconds ∧ pyTruncInt seconds < 60 ∧
            0 ≤ pyTruncInt (qMul (qOfInt 1000000) (pyMod1 seconds)) ∧
            pyTruncInt (qMul (qOfInt 1000000) (pyMod1 seconds)) < 1000000
        · rw [if_pos hv] at h6
          cases h6
          rfl
        · rw [if_neg hv] at h6
          exact Except.noConfusion h6
      cases h7 : pyInt (pySlice line 25 28) with
      | none => rw [h7] at h; exact Except.noConfusion h
      | some flag =>
      rw [h7] at h
      cases h8 : pyInt (pySlice line 29 32) with
      | none => rw [h8] at h; exact Except.noConfusion h
      | some ns =>
        rw [h8] at h
        simp only [Except.ok.injEq, Prod.mk.injEq] at h
        rw [← h.1]
        exact hdt

/-- C7 witness: the amended year rule at the concrete epoch line with
yy = 98 and century 2000. -/
theorem rinex2_year_eq_century_add_yy_witness :
    r2EpochHeader c7Line 2000 = .ok (⟨2098, 1, 1, 0, 0, 0, 0⟩, 0) ∧
    ∃ yy, pyInt (pySlice c7Line 0 4) = some yy ∧
      (⟨2098, 1, 1, 0, 0, 0, 0⟩ : PyDatetime).year = 2000 + yy :=
  ⟨by decide, rinex2_year_eq_century_add_yy c7Line 2000 _ 0 (by decide)⟩

/-- C9 (counterexample): the RINEX 3 parser stores the satellite id
exactly as read — `G 7` is not zero-filled to `G07`. -/
theorem rinex3_sat_id_not_normalized_cex :
    (parse_RINEX3_obs_data c9Lines3 r3wSys).toOption.map
      (fun p => p.1.map Prod.fst) = some ["G 7"] ∧
    ((parse_RINEX3_obs_data c9Lines3 r3wSys).toOption.bind
      (fun p => alookup "G07" p.1)) = none := by
  refine ⟨by decide, by decide⟩

/-- C9 (amended): the RINEX 2 parser zero-fills blanks in the
three-character satellite id (`G 7` is stored as `G07`); the RINEX 3
parser stores the raw id text unchanged. -/
theorem rinex2_sat_id_normalized :
    (parse_RINEX2_obs_data c9Lines2 ["C1"] 2000).toOption.map
      (fun p => p.1.map Prod.fst) = some ["G07"] ∧
    ((parse_RINEX2_obs_data c9Lines2 ["C1"] 2000).toOption.bind
      (fun p => alookup "G 7" p.1)) = none ∧
    pyBlankToZero "G 7" = "G07" := by
  refine ⟨by decide, by decide, by decide⟩

/-- C4 (counterexample): an epoch declaring one satellite whose record
line is absent (zero of the one required physical line) terminates
SILENTLY with an ordinary result — the epoch index was already appended,
no observation values exist, and no truncated-record error is raised. -/
theorem rinex2_truncation_returns_ok_cex :
    ((parse_RINEX2_obs_data c4Lines ["C1", "L1"] 2000).toOption.bind
      (fun p => alookup "G07" p.1)).map (fun e => (e.index, e.obs)) =
      some ([0], []) := by
  decide

/-- C4 (amended): a seven-code layout needs two physical lines per
record; given only one, the scan ends at the exhausted iterator (the
source catches `StopIteration` and returns), yielding the data
accumulated so far: the satellite's time and epoch index are recorded,
its observation lists are absent, and no error of any kind is raised. -/
theorem rinex2_truncation_silent :
    parse_RINEX2_obs_data c4bLines c4bObs 2000 =
      .ok ([("G07", ⟨[⟨2022, 1, 1, 0, 0, 0, 0⟩], [0], []⟩)],
           [⟨2022, 1, 1, 0, 0, 0, 0⟩]) := by
  decide

/-- C1 (counterexample): in the RINEX 2 parser the per-satellite series
do NOT stay index-aligned: after two epochs in which code C1 was blank
once, satellite G07 has two epoch indices but only one C1 value (blank
fields are skipped rather than filled with missing, and newly-seen fields
are not backfilled). -/
theorem rinex2_series_misaligned_cex :
    ((parse_RINEX2_obs_data c1Lines ["C1", "L1"] 2000).toOption.bind
      (fun p => alookup "G07" p.1)).map
      (fun e => (e.index.length, (alookup "C1" e.obs).map List.length)) =
      some (2, some 1) ∧ ¬ ((2 : Nat) = 1) := by
  refine ⟨by decide, by decide⟩

/-- C1 (amended): in the RINEX 3 parser the alignment invariant DOES
hold: for every input whose per-system observation catalog is
duplicate-free (and declares no code literally named "index"), every
satellite of a successful parse has `len(values[f]) = len(index)` for
every field `f` — all fields are allocated when the satellite is first
seen and receive exactly one value (NaN when blank) at each of its
epochs. -/
theorem rinex3_series_aligned (lines : List String)
    (sys : List (String × List String)) (hsys : r3SysOk sys)
    (res : R3Data × List PyDatetime)
    (hok : parse_RINEX3_obs_data lines sys = .ok res) :
    ∀ p ∈ res.1, ∀ q ∈ p.2.obs, q.2.length = p.2.index.length := by
  have hd0 : r3DataOk sys [] := by
    intro p hp
    cases hp
  have h := r3Loop_ok hsys hok hd0
  intro p hp q hq
  obtain ⟨ts, _, _, hlen⟩ := h p hp
  exact hlen q hq

/-- C1 witness: the alignment theorem applied to a concrete one-epoch
RINEX 3 file. -/
theorem rinex3_series_aligned_witness :
    r3SysOk r3wSys ∧
    parse_RINEX3_obs_data r3wLines r3wSys = .ok r3wRes ∧
    ∀ p ∈ r3wRes.1, ∀ q ∈ p.2.obs, q.2.length = p.2.index.length :=
  ⟨by unfold r3SysOk; decide, by decide,
   rinex3_series_aligned r3wLines r3wSys (by unfold r3SysOk; decide) r3wRes (by decide)⟩

theorem r2TransformSatGo_skip (rnx : R2Entry)
    (sat : List (String × List (String × List (Option ℚ)))) :
    ∀ table, (∀ p ∈ table, p.1 ∉ r2SatKeys rnx) →
    r2TransformSatGo rnx sat table = .ok sat := by
  intro table
  induction table with
  | nil => intro _; rfl
  | cons p rest ih =>
    intro hp
    unfold r2TransformSatGo
    rw [if_neg (hp p (List.mem_cons_self _ _))]
    exact ih (fun q hq => hp q (List.mem_cons_of_mem _ hq))

/-- C2: the transform iterates the OUTER keys of the datatype table —
the four constellation names — and tests them against each satellite's
record keys; for any record whose observation codes avoid those four
names (as every real RINEX 2 observation code, being two characters,
does), no signal is ever populated: every transformed satellite has an
empty signals mapping, with only time and index carried over. -/
theorem transform_RINEX2_signals_empty :
    OBSERVATION_DATATYPES.map Prod.fst = ["GPS", "GLONASS", "Galileo", "SBAS"] ∧
    ∀ d : R2Data,
      (∀ sp ∈ d, ∀ p ∈ OBSERVATION_DATATYPES, p.1 ∉ sp.2.obs.map Prod.fst) →
      transform_values_from_RINEX2_obs d =
        .ok (d.map (fun sp => (sp.1, ⟨[], sp.2.time, sp.2.index⟩))) := by
  refine ⟨by decide, ?_⟩
  intro d
  induction d with
  | nil => intro _; rfl
  | cons sp rest ih =>
    intro hd
    have htab : ∀ p ∈ OBSERVATION_DATATYPES, p.1 ≠ "index" ∧ p.1 ≠ "time" := by decide
    have hkeys : ∀ p ∈ OBSERVATION_DATATYPES, p.1 ∉ r2SatKeys sp.2 := by
      intro p hp
      unfold r2SatKeys
      intro hmem
      rcases List.mem_cons.mp hmem with he | hmem
      · exact (htab p hp).1 he
      · rcases List.mem_cons.mp hmem with he | hmem
        · exact (htab p hp).2 he
        · exact hd sp (List.mem_cons_self _ _) p hp hmem
    have hsat : r2TransformSat sp.2 = .ok ⟨[], sp.2.time, sp.2.index⟩ := by
      unfold r2TransformSat
      rw [r2TransformSatGo_skip sp.2 [] OBSERVATION_DATATYPES hkeys]
    show transform_values_from_RINEX2_obs ((sp.1, sp.2) :: rest) = _
    unfold transform_values_from_RINEX2_obs
    rw [hsat, ih (fun q hq => hd q (List.mem_cons_of_mem _ hq))]
    rfl

/-- C2 witness: the transform applied to a one-satellite record table
with a C1 series yields an empty signals mapping with time and index
copied. -/
theorem transform_RINEX2_signals_empty_witness :
    (∀ sp ∈ c2Data, ∀ p ∈ OBSERVATION_DATATYPES, p.1 ∉ sp.2.obs.map Prod.fst) ∧
    transform_values_from_RINEX2_obs c2Data =
      .ok [("G07", ⟨[], [⟨2022, 1, 1, 0, 0, 0, 0⟩], [0]⟩)] :=
  ⟨by decide, by
    rw [transform_RINEX2_signals_empty.2 c2Data (by decide)]
    decide⟩

/-- C8: merging two identical copies of one parsed precise-orbit file
produces exactly the same merged epoch array and the same per-vehicle
row arrays as merging the single file once — concatenation doubles every
(epoch, record) pair, the sort keeps equal epochs adjacent, and the
strict-increase test removes an epoch exactly when it equals its
immediate predecessor, collapsing the duplicates to one occurrence. -/
theorem sp3_merge_idempotent (f : List (ℚ × Sp3Record)) :
    parse_sp3_data [f, f] = parse_sp3_data [f] := by
  unfold parse_sp3_data
  have h2 : ([f, f] : List (List (ℚ × Sp3Record))).flatten = f ++ f := by simp
  have h1 : ([f] : List (List (ℚ × Sp3Record))).flatten = f := by simp
  rw [h2, h1, sp3MergedPairs_self_append, sp3Vehicles_self_pair]
